import Mathlib

/-!
Verification development for the CurrencyParser repository: a shallow
embedding of its rate-synchronization pipeline (fetch → parse → merge →
change-detecting upsert → event fan-out) together with theorems settling
the specification claims about it.

Conventions of the embedding:
- Python float rates are modelled as exact rationals (`ℚ`); the change
  threshold 1e-9 becomes the rational 1 / 10^9.
- Python dicts are modelled as association lists with insert-or-overwrite
  assignment semantics (`dictInsert`); `dict.update` / `{**a, **b}` is
  `dictUpdate`, whose right operand wins on key collisions.
- Code that can raise an exception past its own boundary returns
  `Except Unit _`; code that swallows exceptions returns plain values.
- Configuration constants (CRYPTO_CODES, CURRENCY, timeouts, URLs) live in
  app/config.py, which is not part of the sources at hand; they are passed
  as explicit parameters (the claims hold for every value of the
  configuration), and the platform label is an arbitrary fixed constant.
-/

namespace CurrencySync

/-- Python dict assignment `d[k] = v`: overwrite in place if the key is
present, else append (insertion order preserved, as for Python dicts). -/
def dictInsert {α : Type} : List (String × α) → String → α → List (String × α)
  | [], k, v => [(k, v)]
  | (k', v') :: rest, k, v =>
    if k' = k then (k, v) :: rest else (k', v') :: dictInsert rest k v

/-- Python dict lookup `d.get(k)`. -/
def dictGet? {α : Type} : List (String × α) → String → Option α
  | [], _ => none
  | (k', v') :: rest, k => if k' = k then some v' else dictGet? rest k

/-- Python `a.update(b)` / `{**a, **b}`: every entry of `b` is assigned
into `a`, so on a key collision the entry of `b` wins. -/
def dictUpdate {α : Type} (a b : List (String × α)) : List (String × α) :=
  b.foldl (fun acc kv => dictInsert acc kv.1 kv.2) a

/-- The change-detection tolerance 1e-9 used by the upsert paths. -/
def eps : ℚ := 1 / 1000000000

/-- Python `abs` on a (here rational-valued) number, written so that it
evaluates by reduction; proved equal to `|·|` below. -/
def pyabs (q : ℚ) : ℚ := if q < 0 then -q else q

/-- Stand-in for the configured fixed-income platform label string
(CBR_PLATFORM in app/config.py, which is not among the sources); no claim
depends on its concrete value. -/
def CBR_PLATFORM : String := "CBR"

/-- The `{rate, amount, platform}` dict built by the fetchers and consumed
by `upsert_item`; `amount` and `platform` are read with `.get` there, so
they are optional. -/
structure RateData where
  rate : ℚ
  amount : Option ℤ := none
  platform : Option String := none
deriving DecidableEq, Repr

/-- Model of ItemModel from app/models/item_model.py (the storage `id` is
omitted: it is a storage-assigned surrogate the sync logic never reads). -/
structure Item where
  currency : String
  rate : ℚ
  amount : ℤ
  platform : String
  crypto_currency : Bool
  last_updated_time : ℕ
deriving DecidableEq, Repr

/-- Domain events emitted by the sync-cycle upsert. -/
inductive Event
  | created (item : Item)
  | updated (item : Item)
deriving DecidableEq, Repr

/-- Outcome of one upsert: the resulting row, whether a commit was
performed, and the events emitted. -/
structure UpsertResult where
  item : Item
  wrote : Bool
  events : List Event
deriving DecidableEq, Repr

/-- Shallow embedding of `upsert_item` from app/tasks/task_poller.py
(lines 98–131). The `upsert_item` in app/services/parser.py (lines
145–183) has the identical create / tolerance-check / update logic (the
two differ only in which emitter the event is handed to, modelled
separately as effects). `existing` is the result of the
SELECT-by-currency (`scalar_one_or_none`), `now` the `datetime.utcnow()`
timestamp, and `cryptoCodes` the configured CRYPTO_CODES set. -/
def upsert_item (cryptoCodes : List String) (now : ℕ)
    (existing : Option Item) (currency : String) (data : RateData) :
    UpsertResult :=
  let crypto_currency : Bool := decide (currency ∈ cryptoCodes)
  match existing with
  | none =>
    let item : Item :=
      { currency := currency
        rate := data.rate
        amount := data.amount.getD 1
        platform := data.platform.getD ""
        crypto_currency := crypto_currency
        last_updated_time := now }
    { item := item, wrote := true, events := [Event.created item] }
  | some item =>
    if pyabs (item.rate - data.rate) < eps then
      { item := item, wrote := false, events := [] }
    else
      let item' : Item :=
        { item with
          rate := data.rate
          amount := data.amount.getD item.amount
          platform := data.platform.getD item.platform
          crypto_currency := crypto_currency
          last_updated_time := now }
      { item := item', wrote := true, events := [Event.updated item'] }

/-- The merge step `combined = {**rates, **crypto}` of `Poller.run_once`
(app/tasks/task_poller.py, line 150) and `all_rates = {**cbr_rates,
**crypto_rates}` of `poll_loop` (app/services/parser.py, line 226). -/
def merge_rate_maps (cbr crypto : List (String × RateData)) :
    List (String × RateData) :=
  dictUpdate cbr crypto

/-- The decoded `item` dict of a NATS items.updates message as handled by
app/nats/nats_sub.py; every field is read with `.get` there, so each is
optional. -/
structure ItemPayload where
  currency : Option String := none
  rate : Option ℚ := none
  amount : Option ℤ := none
  platform : Option String := none
  crypto_currency : Option Bool := none
deriving DecidableEq, Repr

/-- Shallow embedding of `NatsSubscriber._upsert_item`
(app/nats/nats_sub.py, lines 89–116). Reading `item["currency"]` raises
KeyError when the key is absent (result `none`); `_on_message` checks
presence before calling. Unlike the poller upsert, every call commits a
write (`wrote := true` on both branches): there is no rate-tolerance
check, and `crypto_currency` is taken from the received payload. The
handler prints the action but emits no domain event itself. -/
def nats_upsert_item (now : ℕ) (existing : Option Item)
    (item : ItemPayload) : Option UpsertResult :=
  match item.currency with
  | none => none
  | some c =>
    match existing with
    | none =>
      let model : Item :=
        { currency := c
          rate := item.rate.getD 0
          amount := item.amount.getD 1
          platform := item.platform.getD ""
          crypto_currency := item.crypto_currency.getD false
          last_updated_time := now }
      some { item := model, wrote := true, events := [] }
    | some model =>
      let model' : Item :=
        { model with
          rate := item.rate.getD model.rate
          amount := item.amount.getD model.amount
          platform := item.platform.getD model.platform
          crypto_currency := item.crypto_currency.getD model.crypto_currency }
      some { item := model', wrote := true, events := [] }

/-- The distinct kinds of emission the process can perform, used to track
where each handler sends data. -/
inductive Effect
  | dbUpsert (currency : String)
  | wsBroadcast
  | busPublish
deriving DecidableEq, Repr

/-- Emissions of `emit_event` from app/tasks/task_poller.py (lines 73–93):
the sync cycle fans every event out to the WebSocket manager and to the
NATS publisher (each failure swallowed). -/
def emit_event_effects : List Effect := [Effect.wsBroadcast, Effect.busPublish]

/-- The decoded body of a NATS message as classified by
`NatsSubscriber._on_message`: `json.loads` may fail (`malformed`), the
item field may be missing or not a dict (`noItemDict`), else the message
carries an `ItemPayload`. -/
inductive NatsMsg
  | malformed
  | noItemDict
  | withItem (item : ItemPayload)
deriving DecidableEq, Repr

/-- Shallow embedding of `NatsSubscriber._on_message`
(app/nats/nats_sub.py, lines 62–85) as the list of emissions it performs.
On a well-formed message whose currency is truthy (present and nonempty)
it upserts into the local store and forwards the event to the WebSocket
ConnectionManager, and does nothing else. -/
def on_message_effects : NatsMsg → List Effect
  | NatsMsg.malformed => []
  | NatsMsg.noItemDict => []
  | NatsMsg.withItem p =>
    match p.currency with
    | none => []
    | some c => if c = "" then [] else [Effect.dbUpsert c, Effect.wsBroadcast]

/-- Environment of one `NatsPublisher.publish` call: whether the client is
currently connected, and the outcomes of `connect()` and publish/flush
if attempted. -/
structure PubEnv where
  connected : Bool
  connectOk : Bool
  publishOk : Bool
deriving DecidableEq, Repr

/-- Shallow embedding of `NatsPublisher.publish` (app/nats/nats_pub.py,
lines 56–79): reconnect first if not connected (a failing `connect`
raises out of `publish`); then try publish + flush, where a failure is
logged and then re-raised by the bare `raise`. `Except.error` models an
exception propagating to the caller. -/
def publisher_publish (env : PubEnv) : Except Unit Unit :=
  if env.connected then
    if env.publishOk then Except.ok () else Except.error ()
  else if env.connectOk then
    if env.publishOk then Except.ok () else Except.error ()
  else Except.error ()

/-- The wrapper around the NATS leg of `emit_event`
(app/tasks/task_poller.py, lines 90–93): `try: await nats.publish(...)
except Exception: print(...)`, so any publish exception is swallowed and
the cycle continues. -/
def emit_event_publish (env : PubEnv) : Except Unit Unit :=
  match publisher_publish env with
  | Except.ok _ => Except.ok ()
  | Except.error _ => Except.ok ()

/-- Result of one `ConnectionManager.broadcast` call: whether the message
was serialized (`jsonable_encoder` ran), which subscribers a send was
attempted to (in order), which sends succeeded, and the live set
afterwards. -/
structure BroadcastResult where
  serialized : Bool
  attempts : List ℕ
  delivered : List ℕ
  active : List ℕ
deriving DecidableEq, Repr

/-- Python `set.discard(ws)`, as used by `ConnectionManager.disconnect`. -/
def pyDiscard (active : List ℕ) (ws : ℕ) : List ℕ :=
  active.filter (fun w => w ≠ ws)

/-- Shallow embedding of `ConnectionManager.broadcast`
(app/ws/ws_handler.py, lines 32–47). Subscribers are opaque ids;
`sendOk s = false` models `ws.send_json` raising for `s`. The loop tries
every member of the live set at call time, collects the failing ones in
`bad_connections`, and only after the full pass disconnects them. -/
def ws_broadcast (sendOk : ℕ → Bool) (active : List ℕ) : BroadcastResult :=
  if active = [] then
    { serialized := false, attempts := [], delivered := [], active := active }
  else
    let bad := active.filter (fun s => !(sendOk s))
    { serialized := true
      attempts := active
      delivered := active.filter (fun s => sendOk s)
      active := bad.foldl pyDiscard active }

/-- An xml.etree.ElementTree Element: tag, optional text, children. -/
inductive XElem where
  | node (tag : String) (text : Option String) (children : List XElem)

/-- Tag of an element. -/
def XElem.tag : XElem → String
  | node t _ _ => t

/-- Text of an element (`None` when absent). -/
def XElem.text : XElem → Option String
  | node _ s _ => s

/-- Children of an element. -/
def XElem.children : XElem → List XElem
  | node _ _ c => c

/-- Python `element.find(tag)`: the first direct child with that tag. -/
def pyFind (e : XElem) (tag : String) : Option XElem :=
  e.children.find? (fun c => c.tag = tag)

/-- Python truthiness of an Element: an element tests false exactly when
it has no child elements (the deprecated `Element.__bool__`); its text is
irrelevant. -/
def elemTruthy (e : XElem) : Bool := !e.children.isEmpty

/-- Python `a or b` applied to two `find` results: `a` is kept only when
it is truthy, i.e. a found element with at least one child. -/
def pyOrElem (a b : Option XElem) : Option XElem :=
  match a with
  | some e => if elemTruthy e then some e else b
  | none => b

mutual

/-- Python `root.findall(".//" ++ tag)`: every proper descendant with the
given tag, in document order. -/
def XElem.descTag (tag : String) : XElem → List XElem
  | XElem.node _ _ c => XElem.descTagList tag c

/-- Helper of `XElem.descTag` over a list of subtrees. -/
def XElem.descTagList (tag : String) : List XElem → List XElem
  | [] => []
  | e :: rest =>
    (if e.tag = tag then [e] else []) ++ XElem.descTag tag e ++
      XElem.descTagList tag rest

end

/-- Numeric value of a digit list (most significant first). -/
def digitsToNat (cs : List Char) : ℕ :=
  cs.foldl (fun n c => 10 * n + (c.toNat - 48)) 0

/-- Python `s.strip()` on a character list: drop leading and trailing
whitespace. -/
def stripChars (cs : List Char) : List Char :=
  ((cs.dropWhile Char.isWhitespace).reverse.dropWhile Char.isWhitespace).reverse

/-- Python `s.strip()`. -/
def pyStrip (s : String) : String := String.mk (stripChars s.toList)

/-- Python `s.replace(",", ".")` — the pattern is a single character, so
the replacement is a character map. -/
def pyReplaceComma (s : String) : String :=
  String.mk (s.toList.map (fun c => if c = ',' then '.' else c))

/-- Model of Python `float(s)` restricted to plain decimal literals
(optional sign, integer part, optional fractional part) — the shape the
CBR feed carries; anything else fails like `float` raising ValueError. -/
def pyFloat (s : String) : Option ℚ :=
  let signBody : ℚ × List Char :=
    match stripChars s.toList with
    | '-' :: rest => (-1, rest)
    | '+' :: rest => (1, rest)
    | cs => (1, cs)
  let sign := signBody.1
  let body := signBody.2
  let intPart := body.takeWhile (fun c => c ≠ '.')
  let rest := body.drop intPart.length
  match rest with
  | [] =>
    if intPart.isEmpty || !(intPart.all Char.isDigit) then none
    else some (sign * (digitsToNat intPart : ℚ))
  | _ :: frac =>
    if intPart.isEmpty && frac.isEmpty then none
    else if !(intPart.all Char.isDigit) || !(frac.all Char.isDigit) then none
    else some (sign * ((digitsToNat intPart : ℚ) +
      (digitsToNat frac : ℚ) / ((10 : ℚ) ^ frac.length)))

/-- Model of Python `int(s)` on strings: optional sign, nonempty digit
run; anything else fails like `int` raising ValueError. -/
def pyInt (s : String) : Option ℤ :=
  let signBody : ℤ × List Char :=
    match stripChars s.toList with
    | '-' :: rest => (-1, rest)
    | '+' :: rest => (1, rest)
    | cs => (1, cs)
  let sign := signBody.1
  let body := signBody.2
  if body.isEmpty || !(body.all Char.isDigit) then none
  else some (sign * (digitsToNat body : ℤ))

/-- Outcome of the loop body of `parse_cbr_xml` for one Valute entry:
`skip` is `continue`, `raiseDiv` the uncaught ZeroDivisionError of
`value / amount` (that division sits outside the try block). -/
inductive EntryStep
  | skip
  | raiseDiv
  | record (currency : String) (data : RateData)
deriving DecidableEq, Repr

/-- The statement `value = float(value_node.text.replace(",", "."))` of
`parse_cbr_xml`, together with the preceding value-node lookup
`value_node = valute.find("Value") or valute.find("VunitRate")`: the
Python `or` tests the truthiness of the Value element — falsy whenever
it has no child elements — not its presence. `none` models any exception
inside the try block (AttributeError on a missing node, TypeError on
missing text, ValueError from `float`). -/
def valuteValue? (v : XElem) : Option ℚ :=
  match pyOrElem (pyFind v "Value") (pyFind v "VunitRate") with
  | none => none
  | some vn =>
    match vn.text with
    | none => none
    | some s => pyFloat (pyReplaceComma s)

/-- The statement `amount = int(amount_node.text) if amount_node is not
None else 1` of `parse_cbr_xml`; `none` models an exception inside the
try block (TypeError on missing text, ValueError from `int`). -/
def valuteAmount? (v : XElem) : Option ℤ :=
  match pyFind v "amount" with
  | none => some 1
  | some an =>
    match an.text with
    | none => none
    | some s => pyInt s

/-- The body of the `for valute in root.findall(".//Valute")` loop of
`parse_cbr_xml` (app/services/parser.py, lines 49–71). -/
def processValute (allowed : List String) (v : XElem) : EntryStep :=
  match pyFind v "CharCode" with
  | none => EntryStep.skip
  | some codeNode =>
    match codeNode.text with
    | none => EntryStep.skip
    | some rawCode =>
      if rawCode = "" then EntryStep.skip
      else
        let currency := pyStrip rawCode
        if currency ∉ allowed then EntryStep.skip
        else
          match valuteValue? v, valuteAmount? v with
          | some value, some amount =>
            if amount = 0 then EntryStep.raiseDiv
            else EntryStep.record currency
              { rate := value / (amount : ℚ)
                amount := some amount
                platform := some CBR_PLATFORM }
          | _, _ => EntryStep.skip

/-- Concrete Valute entry used in the parser theorems: a CharCode node
with text USD, a childless Value node with text 90, and a VunitRate node
with text 45. -/
def valuteUSD : XElem :=
  XElem.node "Valute" none
    [XElem.node "CharCode" (some "USD") [],
     XElem.node "Value" (some "90") [],
     XElem.node "VunitRate" (some "45") []]

/-- Concrete CBR document wrapping `valuteUSD`. -/
def docUSD : XElem := XElem.node "ValCurs" none [valuteUSD]

/-- The whole Valute loop of `parse_cbr_xml`: dict assignment per recorded
entry, `continue` on skip, and the ZeroDivisionError aborting the loop. -/
def parseEntries (allowed : List String) :
    List XElem → List (String × RateData) →
    Except Unit (List (String × RateData))
  | [], acc => Except.ok acc
  | v :: rest, acc =>
    match processValute allowed v with
    | EntryStep.skip => parseEntries allowed rest acc
    | EntryStep.raiseDiv => Except.error ()
    | EntryStep.record c d => parseEntries allowed rest (dictInsert acc c d)

/-- Shallow embedding of `parse_cbr_xml` (app/services/parser.py, lines
37–73). The document is `none` when `ET.fromstring` raised on malformed
bytes, in which case the empty dict is returned; `Except.error` models
the ZeroDivisionError escaping the function. -/
def parse_cbr_xml (doc : Option XElem) (allowed : List String) :
    Except Unit (List (String × RateData)) :=
  match doc with
  | none => Except.ok []
  | some root => parseEntries allowed (XElem.descTag "Valute" root) []

/-- Outcome of the single HTTP GET against the CBR endpoint:
`Except.error` covers network errors and non-success statuses
(`raise_for_status`); `Except.ok` carries the body already run through
`ET.fromstring`, with `none` standing for unparseable bytes. -/
abbrev NetDoc := Except Unit (Option XElem)

/-- Shallow embedding of `fetch_cbr` (app/tasks/task_poller.py, lines
28–42): on request failure it returns the degraded map with RUB at rate
1.0; otherwise it seeds RUB at 1.0 and overlays the parsed rates. Only
the request is inside the try block, so the ZeroDivisionError of
`parse_cbr_xml` escapes. -/
def fetch_cbr (net : NetDoc) (wanted : List String) :
    Except Unit (List (String × RateData)) :=
  match net with
  | Except.error _ =>
    Except.ok [("RUB", { rate := 1, amount := some 1, platform := some CBR_PLATFORM })]
  | Except.ok doc =>
    match parse_cbr_xml doc wanted with
    | Except.error e => Except.error e
    | Except.ok parsed =>
      Except.ok (dictUpdate
        [("RUB", { rate := 1, amount := some 1, platform := some CBR_PLATFORM })]
        parsed)

/-- Result of one `fetch_cbr_rates_sync` call: the returned (or raised)
value, the module cache afterwards, and how many network requests were
performed. -/
structure SyncFetchResult where
  result : Except Unit (List (String × RateData))
  cache : List (String × List (String × RateData))
  netCalls : ℕ

/-- Shallow embedding of `fetch_cbr_rates_sync` (app/services/parser.py,
lines 76–104) over the module-level `_rates_cache`. `dateKey` is the
`format_cbr_date` rendering of the requested date; `net` is the outcome
the network would deliver if a request were made. On request failure the
degraded map with RUB at rate 80.0 is returned and cached under the
date key. -/
def fetch_cbr_rates_sync (net : NetDoc) (wanted : List String)
    (cache : List (String × List (String × RateData))) (dateKey : String) :
    SyncFetchResult :=
  match dictGet? cache dateKey with
  | some cached => { result := Except.ok cached, cache := cache, netCalls := 0 }
  | none =>
    match net with
    | Except.error _ =>
      let fallback :=
        [("RUB", { rate := 80, amount := some 1, platform := some CBR_PLATFORM })]
      { result := Except.ok fallback
        cache := dictInsert cache dateKey fallback
        netCalls := 1 }
    | Except.ok doc =>
      match parse_cbr_xml doc wanted with
      | Except.error e => { result := Except.error e, cache := cache, netCalls := 1 }
      | Except.ok parsed =>
        let rates := dictUpdate
          [("RUB", { rate := 1, amount := some 1, platform := some CBR_PLATFORM })]
          parsed
        { result := Except.ok rates
          cache := dictInsert cache dateKey rates
          netCalls := 1 }

/-! ## General lemmas about the embedding -/

theorem pyabs_eq_abs (q : ℚ) : pyabs q = |q| := by
  unfold pyabs
  rcases lt_or_le q 0 with h | h
  · rw [if_pos h, abs_of_neg h]
  · rw [if_neg (not_lt.mpr h), abs_of_nonneg h]

theorem dictGet?_dictInsert_self {α : Type} (a : List (String × α))
    (k : String) (v : α) : dictGet? (dictInsert a k v) k = some v := by
  induction a with
  | nil => simp [dictInsert, dictGet?]
  | cons hd tl ih =>
    obtain ⟨k', v'⟩ := hd
    by_cases h : k' = k
    · subst h; simp [dictInsert, dictGet?]
    · simp [dictInsert, dictGet?, h, ih]

theorem dictGet?_dictInsert_ne {α : Type} (a : List (String × α))
    {k' k : String} (v' : α) (h : k' ≠ k) :
    dictGet? (dictInsert a k' v') k = dictGet? a k := by
  induction a with
  | nil => simp [dictInsert, dictGet?, h]
  | cons hd tl ih =>
    obtain ⟨k'', v''⟩ := hd
    by_cases h2 : k'' = k'
    · subst h2; simp [dictInsert, dictGet?, h]
    · simp [dictInsert, dictGet?, h2, ih]

theorem dictGet?_dictUpdate_notin {α : Type} (b a : List (String × α))
    {k : String} (h : ∀ p ∈ b, p.1 ≠ k) :
    dictGet? (dictUpdate a b) k = dictGet? a k := by
  induction b generalizing a with
  | nil => simp [dictUpdate]
  | cons hd tl ih =>
    obtain ⟨k', v'⟩ := hd
    have step : dictUpdate a ((k', v') :: tl) = dictUpdate (dictInsert a k' v') tl := by
      simp [dictUpdate]
    rw [step, ih _ fun p hp => h p (List.mem_cons_of_mem _ hp),
      dictGet?_dictInsert_ne _ _ (h (k', v') (List.mem_cons_self _ _))]

theorem dictGet?_dictUpdate_right {α : Type} (b a : List (String × α))
    {k : String} {v : α} (hnodup : (b.map Prod.fst).Nodup)
    (h : dictGet? b k = some v) :
    dictGet? (dictUpdate a b) k = some v := by
  induction b generalizing a with
  | nil => simp [dictGet?] at h
  | cons hd tl ih =>
    obtain ⟨k', v'⟩ := hd
    have step : dictUpdate a ((k', v') :: tl) = dictUpdate (dictInsert a k' v') tl := by
      simp [dictUpdate]
    rw [List.map_cons, List.nodup_cons] at hnodup
    by_cases h2 : k' = k
    · subst h2
      simp [dictGet?] at h
      subst h
      rw [step, dictGet?_dictUpdate_notin tl _
        (fun p hp => by
          intro hk
          have hmem : p.1 ∈ List.map Prod.fst tl := List.mem_map_of_mem Prod.fst hp
          rw [hk] at hmem
          exact hnodup.1 hmem),
        dictGet?_dictInsert_self]
    · simp [dictGet?, h2] at h
      rw [step]
      exact ih _ hnodup.2 h

theorem dictGet?_eq_none_forall {α : Type} (b : List (String × α))
    {k : String} (h : dictGet? b k = none) : ∀ p ∈ b, p.1 ≠ k := by
  induction b with
  | nil => simp
  | cons hd tl ih =>
    obtain ⟨k', v'⟩ := hd
    by_cases h2 : k' = k
    · simp [dictGet?, h2] at h
    · simp [dictGet?, h2] at h
      intro p hp
      rcases List.mem_cons.mp hp with hp | hp
      · subst hp; exact h2
      · exact ih h p hp

/-! ## Claim theorems -/

/-- C1: for an existing Item with rate r and an incoming record with rate
r2, the sync-cycle upsert commits a write and emits an Updated event iff
|r - r2| ≥ 1e-9; when |r - r2| < 1e-9 it is a complete no-op — no write,
no event, stored row unchanged — whatever the amount, platform or crypto
fields of the incoming record are (the no-op branch fires before any of
them is read). -/
theorem upsert_change_threshold (cryptoCodes : List String) (now : ℕ)
    (item : Item) (currency : String) (data : RateData) :
    (eps ≤ |item.rate - data.rate| →
      (upsert_item cryptoCodes now (some item) currency data).wrote = true ∧
      (upsert_item cryptoCodes now (some item) currency data).events =
        [Event.updated (upsert_item cryptoCodes now (some item) currency data).item]) ∧
    (|item.rate - data.rate| < eps →
      upsert_item cryptoCodes now (some item) currency data =
        { item := item, wrote := false, events := [] }) := by
  constructor
  · intro h
    have hn : ¬ pyabs (item.rate - data.rate) < eps := by
      rw [pyabs_eq_abs]; exact not_lt.mpr h
    simp [upsert_item, hn]
  · intro h
    have hp : pyabs (item.rate - data.rate) < eps := by
      rw [pyabs_eq_abs]; exact h
    simp [upsert_item, hp]

/-- Witness for `upsert_change_threshold`: updating a stored USD rate 90
with 91.5 writes and emits an Updated event; re-sending rate 90 with a
different amount, platform and crypto set is a complete no-op. -/
theorem upsert_change_threshold_witness :
    (eps ≤ |(90 : ℚ) - 183 / 2| ∧
      (upsert_item ["BTC"] 7 (some ⟨"USD", 90, 1, "cbr", false, 3⟩) "USD"
        ⟨183 / 2, some 1, some "cbr"⟩).wrote = true ∧
      (upsert_item ["BTC"] 7 (some ⟨"USD", 90, 1, "cbr", false, 3⟩) "USD"
        ⟨183 / 2, some 1, some "cbr"⟩).events =
        [Event.updated (upsert_item ["BTC"] 7
          (some ⟨"USD", 90, 1, "cbr", false, 3⟩) "USD"
          ⟨183 / 2, some 1, some "cbr"⟩).item]) ∧
    (|(90 : ℚ) - 90| < eps ∧
      upsert_item ["USD"] 7 (some ⟨"USD", 90, 1, "cbr", false, 3⟩) "USD"
        ⟨90, some 2, some "other"⟩ =
        { item := ⟨"USD", 90, 1, "cbr", false, 3⟩, wrote := false, events := [] }) := by
  have h1 : eps ≤ |(90 : ℚ) - 183 / 2| := by
    rw [show (90 : ℚ) - 183 / 2 = -(3 / 2) by norm_num, abs_neg,
      abs_of_nonneg (by norm_num : (0 : ℚ) ≤ 3 / 2)]
    norm_num [eps]
  have h2 : |(90 : ℚ) - 90| < eps := by
    rw [sub_self, abs_zero]; norm_num [eps]
  exact ⟨⟨h1, (upsert_change_threshold ["BTC"] 7 ⟨"USD", 90, 1, "cbr", false, 3⟩
      "USD" ⟨183 / 2, some 1, some "cbr"⟩).1 h1⟩,
    h2, (upsert_change_threshold ["USD"] 7 ⟨"USD", 90, 1, "cbr", false, 3⟩
      "USD" ⟨90, some 2, some "other"⟩).2 h2⟩

/-- C2 counterexample: for a code present in both maps the merged map of
`run_once` / `poll_loop` holds the CRYPTO entry, not the fixed-income
one — `{**rates, **crypto}` is right-biased, so crypto entries do
overwrite fixed-income entries (the two entries here differ in platform
and rate, and the spread 1 < 2 separates them). -/
theorem merge_keeps_crypto_counterexample :
    dictGet? (merge_rate_maps
        [("XAU", { rate := 1, amount := some 1, platform := some "cbr" })]
        [("XAU", { rate := 2, amount := some 1, platform := some "binance" })])
        "XAU" =
      some { rate := 2, amount := some 1, platform := some "binance" } ∧
    (1 : ℚ) < 2 ∧ ("binance" = "cbr") = False := by
  refine ⟨rfl, by norm_num, by simp⟩

/-- C2 amended: the merge of the fixed-income map and the crypto map is a
map union keyed by code that is right-biased toward the crypto map: for
every code present in both maps the CRYPTO entry is kept (crypto entries
overwrite fixed-income entries for the same code), and codes absent from
the crypto map keep their fixed-income entry. -/
theorem merge_union_crypto_bias (cbr crypto : List (String × RateData))
    (k : String) (hnodup : (crypto.map Prod.fst).Nodup) :
    (∀ v, dictGet? crypto k = some v →
      dictGet? (merge_rate_maps cbr crypto) k = some v) ∧
    (dictGet? crypto k = none →
      dictGet? (merge_rate_maps cbr crypto) k = dictGet? cbr k) := by
  constructor
  · intro v h
    exact dictGet?_dictUpdate_right _ _ hnodup h
  · intro h
    exact dictGet?_dictUpdate_notin _ _ (dictGet?_eq_none_forall _ h)

/-- Witness for `merge_union_crypto_bias` on concrete maps: BTC is taken
from the crypto map, USD from the fixed-income map. -/
theorem merge_union_crypto_bias_witness :
    (([("BTC", ({ rate := 3, amount := some 1, platform := some "binance" } : RateData))].map
        Prod.fst).Nodup) ∧
    dictGet? (merge_rate_maps
        [("USD", { rate := 90, amount := some 1, platform := some "cbr" })]
        [("BTC", { rate := 3, amount := some 1, platform := some "binance" })])
        "BTC" = some { rate := 3, amount := some 1, platform := some "binance" } ∧
    dictGet? (merge_rate_maps
        [("USD", { rate := 90, amount := some 1, platform := some "cbr" })]
        [("BTC", { rate := 3, amount := some 1, platform := some "binance" })])
        "USD" =
      dictGet? [("USD", { rate := 90, amount := some 1, platform := some "cbr" })] "USD" := by
  refine ⟨by simp, ?_, ?_⟩
  · exact (merge_union_crypto_bias
      [("USD", { rate := 90, amount := some 1, platform := some "cbr" })]
      [("BTC", { rate := 3, amount := some 1, platform := some "binance" })]
      "BTC" (by simp)).1 _ rfl
  · exact (merge_union_crypto_bias
      [("USD", { rate := 90, amount := some 1, platform := some "cbr" })]
      [("BTC", { rate := 3, amount := some 1, platform := some "binance" })]
      "USD" (by simp)).2 rfl

/-- C3 counterexample: with a stored Item at rate 5 and a received record
at the identical rate 5, the sync-cycle upsert is a no-op (no write) but
the replication handler still commits a write — the replication upsert
does not mirror the 1e-9 tolerance rule, so the two paths are not
behaviourally equivalent. -/
theorem replication_upsert_not_equivalent_counterexample :
    (upsert_item [] 0 (some ⟨"USD", 5, 1, "p", false, 0⟩) "USD"
        ⟨5, some 1, some "p"⟩).wrote = false ∧
    (nats_upsert_item 0 (some ⟨"USD", 5, 1, "p", false, 0⟩)
        { currency := some "USD", rate := some 5, amount := some 1,
          platform := some "p", crypto_currency := some false }).map
        UpsertResult.wrote = some true := by
  constructor
  · norm_num [upsert_item, pyabs, eps]
  · rfl

/-- C3 amended: the replication handler always commits a write: for every
existing Item and every received payload carrying a currency it returns
wrote = true with no rate-tolerance check, while on the same input —
within the 1e-9 tolerance — the sync-cycle upsert commits nothing; the
two upsert paths are therefore not behaviourally equivalent. -/
theorem replication_upsert_always_writes (cryptoCodes : List String)
    (now : ℕ) (existing : Option Item) (item : Item) (c : String)
    (p : ItemPayload) (r : ℚ)
    (hc : p.currency = some c) (hr : p.rate = some r)
    (hlt : |item.rate - r| < eps) :
    (nats_upsert_item now existing p).map UpsertResult.wrote = some true ∧
    (upsert_item cryptoCodes now (some item) c
      { rate := r, amount := p.amount, platform := p.platform }).wrote = false := by
  constructor
  · cases existing <;> simp [nats_upsert_item, hc]
  · have hp : pyabs (item.rate - r) < eps := by
      rw [pyabs_eq_abs]; exact hlt
    simp [upsert_item, hp]

/-- Witness for `replication_upsert_always_writes` at a concrete stored
Item and payload with exactly matching rates. -/
theorem replication_upsert_always_writes_witness :
    (({ currency := some "EUR", rate := some 100, amount := some 1,
        platform := some "p", crypto_currency := some false } : ItemPayload).currency
      = some "EUR") ∧
    (|(100 : ℚ) - 100| < eps) ∧
    (nats_upsert_item 4 (some ⟨"EUR", 100, 1, "p", false, 2⟩)
        { currency := some "EUR", rate := some 100, amount := some 1,
          platform := some "p", crypto_currency := some false }).map
        UpsertResult.wrote = some true ∧
    (upsert_item [] 4 (some ⟨"EUR", 100, 1, "p", false, 2⟩) "EUR"
        { rate := 100, amount := some 1, platform := some "p" }).wrote = false := by
  have hlt : |(100 : ℚ) - 100| < eps := by
    rw [sub_self, abs_zero]; norm_num [eps]
  have h := replication_upsert_always_writes [] 4
    (some ⟨"EUR", 100, 1, "p", false, 2⟩) ⟨"EUR", 100, 1, "p", false, 2⟩ "EUR"
    { currency := some "EUR", rate := some 100, amount := some 1,
      platform := some "p", crypto_currency := some false } 100 rfl rfl hlt
  exact ⟨rfl, hlt, h.1, h.2⟩

/-- C4: every emission of the EventBus replication handler `_on_message`
is either the local ItemStore upsert or the forward to the WebSocket
broadcast registry — in particular it never publishes back to the event
bus — while the sync-cycle emitter `emit_event` does include a bus
publish among its emissions (so the effect vocabulary distinguishes the
two). -/
theorem replication_no_republish (m : NatsMsg) (e : Effect)
    (h : e ∈ on_message_effects m) :
    ((∃ c, e = Effect.dbUpsert c) ∨ e = Effect.wsBroadcast) ∧
    Effect.busPublish ∈ emit_event_effects := by
  refine ⟨?_, by simp [emit_event_effects]⟩
  cases m with
  | malformed => simp [on_message_effects] at h
  | noItemDict => simp [on_message_effects] at h
  | withItem p =>
    cases hc : p.currency with
    | none => simp [on_message_effects, hc] at h
    | some c =>
      by_cases hce : c = ""
      · simp [on_message_effects, hc, hce] at h
      · simp [on_message_effects, hc, hce] at h
        rcases h with h | h
        · exact Or.inl ⟨c, h⟩
        · exact Or.inr h

/-- Witness for `replication_no_republish` on a well-formed message. -/
theorem replication_no_republish_witness :
    Effect.dbUpsert "USD" ∈ on_message_effects (NatsMsg.withItem
      { currency := some "USD" }) ∧
    (((∃ c, Effect.dbUpsert "USD" = Effect.dbUpsert c) ∨
        Effect.dbUpsert "USD" = Effect.wsBroadcast) ∧
      Effect.busPublish ∈ emit_event_effects) := by
  have hm : Effect.dbUpsert "USD" ∈ on_message_effects (NatsMsg.withItem
      { currency := some "USD" }) := by
    simp [on_message_effects]
  exact ⟨hm, replication_no_republish _ _ hm⟩

/-- C7 counterexample: with BTC in the configured crypto set, a
replicated payload claiming crypto_currency = false is stored with flag
false by the replication upsert although membership says true — on this
path the flag is taken from the payload, not from the configured set. -/
theorem crypto_flag_from_payload_counterexample :
    (nats_upsert_item 0 none
        { currency := some "BTC", rate := some 5, amount := some 1,
          platform := some "binance", crypto_currency := some false }).map
        (fun r => r.item.crypto_currency) = some false ∧
    decide ("BTC" ∈ (["BTC"] : List String)) = true := by
  exact ⟨rfl, by decide⟩

/-- C7 amended: every Item written by the sync-cycle upsert carries
crypto flag equal to membership of its code in the configured crypto
set; the replication upsert instead takes the flag verbatim from the
received payload whenever the payload carries one. -/
theorem crypto_flag_derivation (cryptoCodes : List String) (now : ℕ)
    (existing : Option Item) (c : String) (data : RateData)
    (hw : (upsert_item cryptoCodes now existing c data).wrote = true) :
    (upsert_item cryptoCodes now existing c data).item.crypto_currency =
      decide (c ∈ cryptoCodes) ∧
    (∀ (i : Option Item) (p : ItemPayload) (b : Bool),
      p.crypto_currency = some b →
      (nats_upsert_item now i p).map (fun r => r.item.crypto_currency) =
        p.currency.map (fun _ => b)) := by
  constructor
  · cases existing with
    | none => simp [upsert_item]
    | some it =>
      by_cases hp : pyabs (it.rate - data.rate) < eps
      · exfalso
        simp [upsert_item, hp] at hw
      · simp [upsert_item, hp]
  · intro i p b hb
    cases hcur : p.currency with
    | none => simp [nats_upsert_item, hcur]
    | some cc => cases i <;> simp [nats_upsert_item, hcur, hb]

/-- Witness for `crypto_flag_derivation`: creating a BTC row through the
sync cycle stores flag true (membership), while the replication path
stores the payload flag false for the same code and configuration. -/
theorem crypto_flag_derivation_witness :
    (upsert_item ["BTC"] 0 none "BTC" ⟨5, some 1, some "binance"⟩).wrote = true ∧
    (upsert_item ["BTC"] 0 none "BTC" ⟨5, some 1, some "binance"⟩).item.crypto_currency =
      decide ("BTC" ∈ (["BTC"] : List String)) ∧
    (nats_upsert_item 0 none
        { currency := some "BTC", rate := some 5, amount := some 1,
          platform := some "binance", crypto_currency := some false }).map
        (fun r => r.item.crypto_currency) =
      (some "BTC").map (fun _ => false) := by
  have h := crypto_flag_derivation ["BTC"] 0 none "BTC"
    ⟨5, some 1, some "binance"⟩ rfl
  exact ⟨rfl, h.1, h.2 none
    { currency := some "BTC", rate := some 5, amount := some 1,
      platform := some "binance", crypto_currency := some false } false rfl⟩

/-- C8 counterexample: with a connected client whose publish (or flush)
fails, `NatsPublisher.publish` propagates the exception to its caller
(the except block ends in a bare raise), contradicting "any publish
failure is logged, not raised to the caller". -/
theorem publish_reraises_counterexample :
    publisher_publish { connected := true, connectOk := true, publishOk := false } =
      Except.error () := rfl

/-- C8 amended: `NatsPublisher.publish` raises to its caller exactly when
the attempted publish/flush fails or the implicit reconnect fails —
publish failures are logged and then re-raised, not swallowed; it is the
sync-cycle caller `emit_event` that catches the exception, so the cycle
(not the publish call) is shielded from event-bus unavailability. -/
theorem publish_error_propagation (env : PubEnv) :
    (publisher_publish env = Except.error () ↔
      ((env.connected || env.connectOk) && env.publishOk) = false) ∧
    emit_event_publish env = Except.ok () := by
  obtain ⟨c, k, p⟩ := env
  cases c <;> cases k <;> cases p <;>
    simp [publisher_publish, emit_event_publish]

theorem foldl_pyDiscard (bs l : List ℕ) :
    bs.foldl pyDiscard l = l.filter (fun x => decide (x ∉ bs)) := by
  induction bs generalizing l with
  | nil => simp
  | cons b tl ih =>
    rw [List.foldl_cons, ih]
    unfold pyDiscard
    rw [List.filter_filter]
    apply List.filter_congr
    intro x _
    by_cases hb : x = b
    · subst hb; simp
    · by_cases ht : x ∈ tl <;> simp [hb, ht]

theorem foldl_pyDiscard_bad (sendOk : ℕ → Bool) (active : List ℕ) :
    (active.filter fun s => !(sendOk s)).foldl pyDiscard active =
      active.filter (fun s => sendOk s) := by
  rw [foldl_pyDiscard]
  apply List.filter_congr
  intro x hx
  by_cases hs : sendOk x
  · simp [List.mem_filter, hs]
  · simp [List.mem_filter, hs, hx]

/-- C5: `ConnectionManager.broadcast` on an empty live set returns at
once, before serialization; on a nonempty set it serializes once,
attempts delivery to every subscriber registered at call time (a failing
send never aborts the rest of the pass), and only after the full pass
unregisters exactly the failed subscribers — so a subsequent broadcast
attempts exactly the surviving subscribers. -/
theorem ws_broadcast_spec (sendOk : ℕ → Bool) (active : List ℕ)
    (h : active ≠ []) :
    ws_broadcast sendOk active =
      { serialized := true
        attempts := active
        delivered := active.filter (fun s => sendOk s)
        active := active.filter (fun s => sendOk s) } ∧
    ws_broadcast sendOk [] =
      { serialized := false, attempts := [], delivered := [], active := [] } ∧
    (∀ ok2 : ℕ → Bool, active.filter (fun s => sendOk s) ≠ [] →
      (ws_broadcast ok2 (ws_broadcast sendOk active).active).attempts =
        active.filter (fun s => sendOk s)) := by
  have hmain : ws_broadcast sendOk active =
      { serialized := true
        attempts := active
        delivered := active.filter (fun s => sendOk s)
        active := active.filter (fun s => sendOk s) } := by
    rw [ws_broadcast, if_neg h]
    simp only [foldl_pyDiscard_bad]
  refine ⟨hmain, by rw [ws_broadcast, if_pos rfl], ?_⟩
  intro ok2 hne
  rw [hmain]
  show (ws_broadcast ok2 (active.filter fun s => sendOk s)).attempts = _
  rw [ws_broadcast, if_neg hne]

/-- Witness for `ws_broadcast_spec`, the scenario from the spec: live set
with subscribers 1 and 2 where sending to 2 raises: one broadcast call
delivers to 1, unregisters 2, and a subsequent broadcast (here with
all sends succeeding) attempts exactly the survivor 1. -/
theorem ws_broadcast_spec_witness :
    (([1, 2] : List ℕ) ≠ []) ∧
    ws_broadcast (fun s => s == 1) [1, 2] =
      { serialized := true, attempts := [1, 2], delivered := [1], active := [1] } ∧
    (ws_broadcast (fun _ => true) (ws_broadcast (fun s => s == 1) [1, 2]).active).attempts
      = [1] := by
  have h := ws_broadcast_spec (fun s => s == 1) [1, 2] (by decide)
  have hfilter : ([1, 2] : List ℕ).filter (fun s => s == 1) = [1] := by decide
  refine ⟨by decide, ?_, ?_⟩
  · rw [h.1, hfilter]
  · rw [h.2.2 (fun _ => true) (by decide), hfilter]

/-- C6 counterexample: on a network failure the cached sync fetch returns
a fallback with RUB at rate 80.0 — not 1.0 as claimed for both
implementations (the positive fact 1 < 80 separates the two values). -/
theorem sync_fallback_rate_counterexample :
    (fetch_cbr_rates_sync (Except.error ()) ["USD"] [] "01/01/2025").result =
      Except.ok [("RUB",
        { rate := 80, amount := some 1, platform := some CBR_PLATFORM })] ∧
    (1 : ℚ) < 80 := by
  exact ⟨rfl, by norm_num⟩

/-- C6 amended: neither fixed-income fetch raises on a failed request or
a malformed document, and both return a degraded one-entry RUB map — but
the fallback rate differs between the two implementations: `fetch_cbr`
(poller path) uses rate 1.0 while `fetch_cbr_rates_sync` (cached sync
path) uses rate 80.0 on request failure; a malformed document (parse
failure) yields the RUB 1.0 base map in both. -/
theorem fetch_failure_fallback (wanted : List String)
    (cache : List (String × List (String × RateData))) (d : String)
    (hd : dictGet? cache d = none) :
    fetch_cbr (Except.error ()) wanted =
      Except.ok [("RUB",
        { rate := 1, amount := some 1, platform := some CBR_PLATFORM })] ∧
    (fetch_cbr_rates_sync (Except.error ()) wanted cache d).result =
      Except.ok [("RUB",
        { rate := 80, amount := some 1, platform := some CBR_PLATFORM })] ∧
    fetch_cbr (Except.ok none) wanted =
      Except.ok [("RUB",
        { rate := 1, amount := some 1, platform := some CBR_PLATFORM })] ∧
    (fetch_cbr_rates_sync (Except.ok none) wanted cache d).result =
      Except.ok [("RUB",
        { rate := 1, amount := some 1, platform := some CBR_PLATFORM })] := by
  refine ⟨rfl, ?_, rfl, ?_⟩
  · rw [fetch_cbr_rates_sync, hd]
  · rw [fetch_cbr_rates_sync, hd]
    rfl

/-- Witness for `fetch_failure_fallback` with an empty cache and a fresh
date key. -/
theorem fetch_failure_fallback_witness :
    dictGet? ([] : List (String × List (String × RateData))) "02/01/2025" = none ∧
    (fetch_cbr_rates_sync (Except.error ()) ["USD"] [] "02/01/2025").result =
      Except.ok [("RUB",
        { rate := 80, amount := some 1, platform := some CBR_PLATFORM })] ∧
    fetch_cbr (Except.ok none) ["USD"] =
      Except.ok [("RUB",
        { rate := 1, amount := some 1, platform := some CBR_PLATFORM })] := by
  have h := fetch_failure_fallback ["USD"] [] "02/01/2025" rfl
  exact ⟨rfl, h.2.1, h.2.2.1⟩

/-- C10: with a date key not yet cached, whenever the first
`fetch_cbr_rates_sync` call returns a map m (it always does unless the
parse raises), a second call for the same date returns exactly m with
zero network requests and an unchanged cache — whatever the network
would do on the second call; and when the first call hit a request
failure, m is the degraded RUB 80.0 fallback, so a failed fetch is not
retried for that date key in this path. -/
theorem sync_fetch_cache_spec (net1 net2 : NetDoc)
    (wanted1 wanted2 : List String)
    (cache : List (String × List (String × RateData))) (d : String)
    (m : List (String × RateData))
    (hd : dictGet? cache d = none)
    (hm : (fetch_cbr_rates_sync net1 wanted1 cache d).result = Except.ok m) :
    fetch_cbr_rates_sync net2 wanted2
        (fetch_cbr_rates_sync net1 wanted1 cache d).cache d =
      { result := Except.ok m
        cache := (fetch_cbr_rates_sync net1 wanted1 cache d).cache
        netCalls := 0 } ∧
    (net1 = Except.error () →
      m = [("RUB",
        { rate := 80, amount := some 1, platform := some CBR_PLATFORM })]) := by
  cases net1 with
  | error u =>
    simp only [fetch_cbr_rates_sync, hd, Except.ok.injEq] at hm ⊢
    subst hm
    constructor
    · simp only [fetch_cbr_rates_sync, dictGet?_dictInsert_self]
    · intro _; rfl
  | ok doc =>
    simp only [fetch_cbr_rates_sync, hd] at hm ⊢
    cases hp : parse_cbr_xml doc wanted1 with
    | error e =>
      rw [hp] at hm
      simp at hm
    | ok parsed =>
      rw [hp] at hm
      simp only [Except.ok.injEq] at hm
      subst hm
      constructor
      · simp [dictGet?_dictInsert_self]
      · intro hcontra; cases hcontra

/-- Witness for `sync_fetch_cache_spec`: first call on a fresh date fails
at the network and caches the RUB 80.0 fallback; the second call returns
that exact map with zero network requests. -/
theorem sync_fetch_cache_spec_witness :
    dictGet? ([] : List (String × List (String × RateData))) "03/01/2025" = none ∧
    (fetch_cbr_rates_sync (Except.error ()) ["USD"] [] "03/01/2025").result =
      Except.ok [("RUB",
        { rate := 80, amount := some 1, platform := some CBR_PLATFORM })] ∧
    fetch_cbr_rates_sync (Except.ok none) ["EUR"]
        (fetch_cbr_rates_sync (Except.error ()) ["USD"] [] "03/01/2025").cache
        "03/01/2025" =
      { result := Except.ok [("RUB",
          { rate := 80, amount := some 1, platform := some CBR_PLATFORM })]
        cache := (fetch_cbr_rates_sync (Except.error ()) ["USD"] [] "03/01/2025").cache
        netCalls := 0 } := by
  have h := sync_fetch_cache_spec (Except.error ()) (Except.ok none)
    ["USD"] ["EUR"] [] "03/01/2025"
    [("RUB", { rate := 80, amount := some 1, platform := some CBR_PLATFORM })]
    rfl rfl
  exact ⟨rfl, rfl, h.1⟩

/-- C9 counterexample: a document whose Valute entry carries a childless
Value node with text 90 and a VunitRate node with text 45. "First present
of the two accepted tag names" would take the Value node and record rate
90, but the Python `or` tests element truthiness (childless elements are
falsy), so the parser records the VunitRate value 45 instead: the Value
node is present with text 90, yet the recorded rate is 45 (and 45 < 90
separates the two). -/
theorem parse_value_node_counterexample :
    parse_cbr_xml (some docUSD) ["USD"] =
      Except.ok [("USD",
        { rate := 45, amount := some 1, platform := some CBR_PLATFORM })] ∧
    pyFind valuteUSD "Value" = some (XElem.node "Value" (some "90") []) ∧
    pyFloat "90" = some 90 ∧
    (45 : ℚ) < 90 := by
  refine ⟨?_, rfl, ?_, by norm_num⟩
  · have h1 : parse_cbr_xml (some docUSD) ["USD"] =
        Except.ok [("USD",
          { rate := (1 * ((digitsToNat ['4', '5'] : ℕ) : ℚ)) / ((1 : ℤ) : ℚ)
            amount := some 1
            platform := some CBR_PLATFORM })] := rfl
    rw [h1, show digitsToNat ['4', '5'] = 45 from by decide]
    norm_num
  · have h2 : pyFloat "90" = some (1 * ((digitsToNat ['9', '0'] : ℕ) : ℚ)) := rfl
    rw [h2, show digitsToNat ['9', '0'] = 90 from by decide]
    norm_num

/-- C9 amended: `parse_cbr_xml` returns the empty map on a malformed
document; an entry on which extraction fails is skipped; for a
well-formed entry with an allowed code the recorded rate is
value / amount with amount defaulting to 1 when the amount node is
absent — but the value node is resolved by Python truthiness (the Value
element is used only when it has child elements, else VunitRate is
consulted), not by first presence of the two tag names; and an entry
whose unit-amount parses to 0 makes the ZeroDivisionError escape the
parser instead of being skipped. -/
theorem parse_cbr_xml_amended
    (allowed : List String) (v codeNode : XElem) (rawCode : String)
    (value : ℚ) (amount : ℤ)
    (h1 : pyFind v "CharCode" = some codeNode)
    (h2 : codeNode.text = some rawCode)
    (h3 : ¬ rawCode = "")
    (h4 : pyStrip rawCode ∈ allowed)
    (hval : valuteValue? v = some value)
    (hamt : valuteAmount? v = some amount)
    (h9 : ¬ amount = 0) :
    processValute allowed v =
      EntryStep.record (pyStrip rawCode)
        { rate := value / (amount : ℚ), amount := some amount,
          platform := some CBR_PLATFORM } ∧
    (∀ a, parse_cbr_xml none a = Except.ok []) ∧
    (∀ (e : XElem) (b : Option XElem),
      elemTruthy e = false → pyOrElem (some e) b = b) ∧
    (∀ a w rest acc, processValute a w = EntryStep.skip →
      parseEntries a (w :: rest) acc = parseEntries a rest acc) ∧
    (∀ a w rest acc, processValute a w = EntryStep.raiseDiv →
      parseEntries a (w :: rest) acc = Except.error ()) := by
  refine ⟨?_, fun a => rfl, ?_, ?_, ?_⟩
  · simp [processValute, h1, h2, h3, h4, hval, hamt, h9]
  · intro e b he
    simp [pyOrElem, he]
  · intro a w rest acc hskip
    rw [parseEntries, hskip]
  · intro a w rest acc hraise
    rw [parseEntries, hraise]

/-- Witness for `parse_cbr_xml_amended` at the concrete entry
`valuteUSD` (value 45 from the VunitRate node, default amount 1). -/
theorem parse_cbr_xml_amended_witness :
    pyFind valuteUSD "CharCode" =
      some (XElem.node "CharCode" (some "USD") []) ∧
    pyStrip "USD" ∈ (["USD"] : List String) ∧
    valuteValue? valuteUSD = some 45 ∧
    valuteAmount? valuteUSD = some 1 ∧
    processValute ["USD"] valuteUSD =
      EntryStep.record (pyStrip "USD")
        { rate := (45 : ℚ) / ((1 : ℤ) : ℚ), amount := some 1,
          platform := some CBR_PLATFORM } := by
  have hval : valuteValue? valuteUSD = some 45 := by
    have h : valuteValue? valuteUSD =
        some (1 * ((digitsToNat ['4', '5'] : ℕ) : ℚ)) := rfl
    rw [h, show digitsToNat ['4', '5'] = 45 from by decide]
    norm_num
  have h := parse_cbr_xml_amended ["USD"] valuteUSD
    (XElem.node "CharCode" (some "USD") []) "USD" 45 1
    rfl rfl (by decide) (by decide) hval rfl (by decide)
  exact ⟨rfl, by decide, hval, rfl, h.1⟩

end CurrencySync
